import Mathlib

/-!
A shallow embedding of the `simple-paillier` repository
(`paillier_common.py`, `paillier_server.py`) and proofs about it.

Python `int` is embedded as `Int`.  Python's `//` and `%` are floor
division and floor modulus, embedded as `Int.fdiv` and `Int.fmod`.
Python exceptions are embedded as an explicit `Except` error channel.
-/

namespace Paillier

/-- A JSON scalar value as it appears in the protocol's records:
the library only ever stores strings and (arbitrary-precision) integers
in message fields. -/
inductive JsonValue where
  | str (s : String)
  | num (z : Int)
deriving DecidableEq

/-- A decoded JSON object (a Python `dict` produced by `json.loads`):
a key-value record with string keys.  Python dict keys are unique;
lookup returns the first binding. -/
def Json : Type := List (String × JsonValue)

/-- Python `key in json` / `json[key]` lookup. -/
def Json.get (j : Json) (k : String) : Option JsonValue :=
  (j.find? (fun kv => kv.1 == k)).map (fun kv => kv.2)

/-- The Python exception values raised by the library code:
`MessageParseError`, the plain `Exception` raised by `modinv`,
`PaillierComputationError`, `AssertionError` from a failed `assert`,
and `TypeError` from arithmetic on a non-numeric JSON field. -/
inductive PyErr where
  | msgParse (message : String)
  | generic (message : String)
  | compError (message : JsonValue)
  | assertionError
  | typeError
deriving DecidableEq

/-- `b` is never `0` in the recursive call of `xgcdLoop`; the floor
modulus strictly shrinks in absolute value, which is the termination
measure of the Python `while` loop in `xgcd`. -/
theorem natAbs_fmod_lt (a b : Int) (hb : b ≠ 0) : (a.fmod b).natAbs < b.natAbs := by
  cases a with
  | ofNat m =>
    cases b with
    | ofNat n =>
      have hn : 0 < n := by
        rcases Nat.eq_zero_or_pos n with h | h
        · exact absurd (by simp [h]) hb
        · exact h
      cases m with
      | zero => simpa using hn
      | succ m => simpa [Int.fmod] using Nat.mod_lt _ hn
    | negSucc n =>
      cases m with
      | zero => simp
      | succ m =>
        have hk : m % (n+1) < n + 1 := Nat.mod_lt _ (Nat.succ_pos n)
        simp only [Int.fmod, Int.subNatNat_eq_coe, Int.natAbs_negSucc, Nat.succ_eq_add_one,
          Int.ofNat_eq_natCast]
        omega
  | negSucc m =>
    cases b with
    | ofNat n =>
      have hn : 0 < n := by
        rcases Nat.eq_zero_or_pos n with h | h
        · exact absurd (by simp [h]) hb
        · exact h
      have hk : m % n < n := Nat.mod_lt _ hn
      simp only [Int.fmod, Int.subNatNat_eq_coe, Int.natAbs_ofNat, Nat.succ_eq_add_one,
        Int.ofNat_eq_natCast]
      omega
    | negSucc n =>
      have hk : (m+1) % (n+1) < n + 1 := Nat.mod_lt _ (Nat.succ_pos n)
      simp only [Int.fmod, Int.natAbs_neg, Int.natAbs_ofNat, Int.natAbs_negSucc,
        Nat.succ_eq_add_one, Int.ofNat_eq_natCast]
      omega

/-- The `while b != 0` loop of `xgcd` (`paillier_common.py` lines 27-31).
Each Python iteration performs the simultaneous update
`q, a, b = a // b, b, a % b; x0, x1 = x1, x0 - q*x1; y0, y1 = y1, y0 - q*y1`
and on exit the function returns `(a, x0, y0)`. -/
def xgcdLoop (a b x0 x1 y0 y1 : Int) : Int × Int × Int :=
  if hb : b = 0 then (a, x0, y0)
  else
    xgcdLoop b (a.fmod b) x1 (x0 - a.fdiv b * x1) y1 (y0 - a.fdiv b * y1)
termination_by b.natAbs
decreasing_by exact natAbs_fmod_lt a b hb

/-- `xgcd` (`paillier_common.py` lines 17-34): runs the loop from the
initial state `x0, x1, y0, y1 = 1, 0, 0, 1`, then executes
`assert a0*x0 + b0*y0 == math.gcd(a0, b0)` (a failed `assert` raises
`AssertionError`, embedded as the error branch) and returns `(a, x0, y0)`. -/
def xgcd (a b : Int) : Except PyErr (Int × Int × Int) :=
  let r := xgcdLoop a b 1 0 0 1
  if a * r.2.1 + b * r.2.2 = (Int.gcd a b : Int) then .ok r else .error .assertionError

/-- `modinv` (`paillier_common.py` lines 36-50): raises a plain
`Exception('Modular inverse does not exist')` when the gcd is not 1,
otherwise computes `inv = x % m`, asserts `(inv * a) % m == 1`, and
returns `inv`. -/
def modinv (a m : Int) : Except PyErr Int :=
  match xgcd a m with
  | .error e => .error e
  | .ok (g, x, _) =>
    if g ≠ 1 then .error (.generic "Modular inverse does not exist")
    else
      let inv := x.fmod m
      if (inv * a).fmod m = 1 then .ok inv else .error .assertionError

/-- Python's three-argument built-in `pow(b, e, m)` as used by the
library: every call site passes a non-negative exponent and a positive
modulus, for which `pow(b, e, m) = (b ** e) % m` with floor modulus. -/
def powMod (b e m : Int) : Int := (b ^ e.toNat).fmod m

/-- The `PrivateKey` namedtuple (`paillier_common.py` line 14). -/
structure PrivateKey where
  gLambda : Int
  gMu : Int
deriving DecidableEq

/-- The `PublicKey` namedtuple (`paillier_common.py` line 15). -/
structure PublicKey where
  n : Int
  g : Int
deriving DecidableEq

/-- `generate_paillier_keys` (`paillier_common.py` lines 62-82).
The Python body runs `while gMu is None: try: u = pow(g, gLambda, n*n);
l = (u-1) // n; gMu = modinv(l, n) except: pass`.  The loop body depends
on no mutable state besides `gMu`, so every iteration recomputes the
same values: the loop exits after the first iteration when
`modinv(l, n)` succeeds and repeats the identical failing computation
forever otherwise.  Non-termination is embedded as `none`. -/
def generate_paillier_keys (p q : Int) : Option (PrivateKey × PublicKey) :=
  let n := p * q
  let gLambda := (p - 1) * (q - 1)
  let g := n + 1
  let u := powMod g gLambda (n * n)
  let l := (u - 1).fdiv n
  match modinv l n with
  | .ok gMu => some (⟨gLambda, gMu⟩, ⟨n, g⟩)
  | .error _ => none

/-- `encrypt_param` (`paillier_common.py` lines 95-102). -/
def encrypt_param (msg g n r : Int) : Int :=
  let k1 := powMod g msg (n * n)
  let k2 := powMod r n (n * n)
  (k1 * k2).fmod (n * n)

/-- `decrypt` (`paillier_common.py` lines 104-111). -/
def decrypt (ciphertext lam mu n : Int) : Int :=
  let k1 := powMod ciphertext lam (n * n)
  let l := (k1 - 1).fdiv n
  (l * mu).fmod n

/-- The request hierarchy `PaillierAddMsg` / `PaillierMulMsg` /
`PaillierSubMsg` (`paillier_common.py` lines 230-354), embedded as a
closed inductive.  Field values are whatever JSON scalars the decoded
record carried, exactly as in Python where the parsers store
`json['e1']` etc. unchecked. -/
inductive PaillierMessage where
  | add (e1 e2 n : JsonValue)
  | mul (x m n : JsonValue)
  | sub (e1 e2 n : JsonValue)
deriving DecidableEq

/-- `toJson` of the three request classes (lines 241-252, 284-295,
325-336): a record with the `type` discriminant and the variant's
fields. -/
def PaillierMessage.toJson : PaillierMessage → Json
  | .add e1 e2 n => [("type", .str "ADD"), ("e1", e1), ("e2", e2), ("n", n)]
  | .mul x m n => [("type", .str "MUL"), ("ciphertext", x), ("multiplier", m), ("n", n)]
  | .sub e1 e2 n => [("type", .str "SUB"), ("e1", e1), ("e2", e2), ("n", n)]

/-- `PaillierMessage.parseAdd` (lines 185-198): checks `e1`, `e2`, `n`
in order and raises `MessageParseError` naming the first absent one. -/
def PaillierMessage.parseAdd (json : Json) : Except PyErr PaillierMessage :=
  match json.get "e1" with
  | none => .error (.msgParse "No \"e1\" field in message")
  | some e1 =>
    match json.get "e2" with
    | none => .error (.msgParse "No \"e2\" field in message")
    | some e2 =>
      match json.get "n" with
      | none => .error (.msgParse "No \"n\" field in message")
      | some n => .ok (.add e1 e2 n)

/-- `PaillierMessage.parseMul` (lines 200-213).  The second message
string reproduces the source literally, including its unbalanced
quote. -/
def PaillierMessage.parseMul (json : Json) : Except PyErr PaillierMessage :=
  match json.get "ciphertext" with
  | none => .error (.msgParse "No \"ciphertext\" field in message")
  | some x =>
    match json.get "multiplier" with
    | none => .error (.msgParse "No \"multiplier field in message")
    | some m =>
      match json.get "n" with
      | none => .error (.msgParse "No \"n\" field in message")
      | some n => .ok (.mul x m n)

/-- `PaillierMessage.parseSub` (lines 215-228). -/
def PaillierMessage.parseSub (json : Json) : Except PyErr PaillierMessage :=
  match json.get "e1" with
  | none => .error (.msgParse "No \"e1\" field in message")
  | some e1 =>
    match json.get "e2" with
    | none => .error (.msgParse "No \"e2\" field in message")
    | some e2 =>
      match json.get "n" with
      | none => .error (.msgParse "No \"n\" field in message")
      | some n => .ok (.sub e1 e2 n)

/-- `PaillierMessage.fromJson` (lines 169-183): dispatches on the
`type` field; an absent `type`, or one equal to none of `ADD`, `MUL`,
`SUB`, falls through to `MessageParseError('No "type" field in
message')`. -/
def PaillierMessage.fromJson (json : Json) : Except PyErr PaillierMessage :=
  if json.get "type" = some (.str "ADD") then PaillierMessage.parseAdd json
  else if json.get "type" = some (.str "MUL") then PaillierMessage.parseMul json
  else if json.get "type" = some (.str "SUB") then PaillierMessage.parseSub json
  else .error (.msgParse "No \"type\" field in message")

/-- The response hierarchy (`paillier_common.py` lines 358-499): one
constructor per subclass `PaillierAddResponse` / `PaillierMulResponse`
/ `PaillierSubResponse` / `PaillierErrorResponse`, each holding the
`result` field. -/
inductive PaillierResponse where
  | addResponse (result : JsonValue)
  | mulResponse (result : JsonValue)
  | subResponse (result : JsonValue)
  | errorResponse (result : JsonValue)
deriving DecidableEq

/-- The `msgType` tag each subclass passes to `PaillierResponse
.__init__` (lines 364-367, 461-493). -/
def PaillierResponse.msgType : PaillierResponse → String
  | .addResponse _ => "ADD_RESP"
  | .mulResponse _ => "MUL_RESP"
  | .subResponse _ => "SUB_RESP"
  | .errorResponse _ => "ERROR"

/-- The `result` field of a response. -/
def PaillierResponse.result : PaillierResponse → JsonValue
  | .addResponse r => r
  | .mulResponse r => r
  | .subResponse r => r
  | .errorResponse r => r

/-- Python truthiness of a JSON scalar (`if error_message:`): the empty
string and the number 0 are falsy. -/
def JsonValue.falsy : JsonValue → Bool
  | .str s => s == ""
  | .num z => z == 0

/-- The `PaillierErrorResponse` constructor (lines 489-493): a falsy or
absent `error_message` is replaced by the string `"error"`. -/
def PaillierErrorResponse (error_message : Option JsonValue) : PaillierResponse :=
  match error_message with
  | some v => if v.falsy then .errorResponse (.str "error") else .errorResponse v
  | none => .errorResponse (.str "error")

/-- `computeResult` of the three request classes (lines 254-260,
297-303, 338-345).  The Sub case first computes
`modinv(e2, n*n)`, whose plain `Exception` propagates.  A non-numeric
operand would raise `TypeError` in Python's arithmetic. -/
def PaillierMessage.computeResult : PaillierMessage → Except PyErr PaillierResponse
  | .add (.num e1) (.num e2) (.num n) =>
    .ok (.addResponse (.num ((e1 * e2).fmod (n * n))))
  | .mul (.num x) (.num m) (.num n) =>
    .ok (.mulResponse (.num (powMod x m (n * n))))
  | .sub (.num e1) (.num e2) (.num n) =>
    match modinv e2 (n * n) with
    | .error e => .error e
    | .ok neg_e2 => .ok (.subResponse (.num ((e1 * neg_e2).fmod (n * n))))
  | _ => .error .typeError

/-- `PaillierResponse.toJson` (lines 373-382). -/
def PaillierResponse.toJson (r : PaillierResponse) : Json :=
  [("type", .str r.msgType), ("result", r.result)]

/-- `PaillierResponse.parseAddResponse` (lines 425-432). -/
def PaillierResponse.parseAddResponse (json : Json) : Except PyErr PaillierResponse :=
  match json.get "result" with
  | some r => .ok (.addResponse r)
  | none => .error (.msgParse "No \"result\" field in message")

/-- `PaillierResponse.parseMulResponse` (lines 434-441). -/
def PaillierResponse.parseMulResponse (json : Json) : Except PyErr PaillierResponse :=
  match json.get "result" with
  | some r => .ok (.mulResponse r)
  | none => .error (.msgParse "No \"result\" field in message")

/-- `PaillierResponse.parseSubResponse` (lines 443-450). -/
def PaillierResponse.parseSubResponse (json : Json) : Except PyErr PaillierResponse :=
  match json.get "result" with
  | some r => .ok (.subResponse r)
  | none => .error (.msgParse "No \"result\" field in message")

/-- `PaillierResponse.parseErrorReponse` (lines 452-459): builds the
result through the `PaillierErrorResponse` constructor and hence its
truthiness check. -/
def PaillierResponse.parseErrorReponse (json : Json) : Except PyErr PaillierResponse :=
  match json.get "result" with
  | some r => .ok (PaillierErrorResponse (some r))
  | none => .error (.msgParse "No \"result\" field in message")

/-- `PaillierResponse.fromJson` (lines 406-423). -/
def PaillierResponse.fromJson (json : Json) : Except PyErr PaillierResponse :=
  if json.get "type" = some (.str "ADD_RESP") then PaillierResponse.parseAddResponse json
  else if json.get "type" = some (.str "MUL_RESP") then PaillierResponse.parseMulResponse json
  else if json.get "type" = some (.str "ERROR") then PaillierResponse.parseErrorReponse json
  else if json.get "type" = some (.str "SUB_RESP") then PaillierResponse.parseSubResponse json
  else .error (.msgParse "No \"type\" field in message")

/-- `decryptResult` (lines 384-389 and the override at 495-499): the
error subclass raises `PaillierComputationError(self.result)`; the
other subclasses call `decrypt` on their numeric result. -/
def PaillierResponse.decryptResult (r : PaillierResponse) (gLambda gMu n : Int) :
    Except PyErr Int :=
  match r with
  | .errorResponse v => .error (.compError v)
  | .addResponse (.num c) => .ok (decrypt c gLambda gMu n)
  | .mulResponse (.num c) => .ok (decrypt c gLambda gMu n)
  | .subResponse (.num c) => .ok (decrypt c gLambda gMu n)
  | _ => .error .typeError

/-- `PaillierHandler.handle` (`paillier_server.py` lines 21-37) at the
decoded-JSON level: deserialise the request and compute its result
inside `try`, catching only `MessageParseError` (converted into a
`PaillierErrorResponse` that is sent back).  Every other exception
propagates out of `handle`, embedded as the `.error` branch: the
handler then sends no response. -/
def handle (json : Json) : Except PyErr PaillierResponse :=
  match (PaillierMessage.fromJson json).bind PaillierMessage.computeResult with
  | .ok result => .ok result
  | .error (.msgParse m) => .ok (PaillierErrorResponse (some (.str m)))
  | .error e => .error e

/-! ## Facts about the extended Euclidean loop -/

/-- One Euclidean step preserves the gcd (positive divisor case). -/
theorem gcd_fmod_right (a b : Int) (hb : 0 < b) : Int.gcd b (a.fmod b) = Int.gcd a b := by
  rw [Int.fmod_eq_emod a hb.le]
  apply Nat.dvd_antisymm
  · rw [← Int.natCast_dvd_natCast]
    apply Int.dvd_gcd
    · have h := Int.ediv_add_emod a b
      calc (Int.gcd b (a % b) : Int) ∣ b * (a / b) + a % b :=
            dvd_add ((Int.gcd_dvd_left).mul_right _) Int.gcd_dvd_right
        _ = a := h
    · exact Int.gcd_dvd_left
  · rw [← Int.natCast_dvd_natCast]
    apply Int.dvd_gcd
    · exact Int.gcd_dvd_right
    · have h : a % b = a - b * (a / b) := Int.emod_def a b
      rw [h]
      exact dvd_sub Int.gcd_dvd_left ((Int.gcd_dvd_right).mul_right _)

/-- Loop invariant: the Bézout combinations tracked in `x0, y0` always
reproduce the first returned component.  Holds for every input. -/
theorem xgcdLoop_bezout (A B : Int) : ∀ a b x0 x1 y0 y1 : Int,
    A * x0 + B * y0 = a → A * x1 + B * y1 = b →
    A * (xgcdLoop a b x0 x1 y0 y1).2.1 + B * (xgcdLoop a b x0 x1 y0 y1).2.2
      = (xgcdLoop a b x0 x1 y0 y1).1 := by
  intro a b x0 x1 y0 y1
  induction a, b, x0, x1, y0, y1 using xgcdLoop.induct with
  | case1 a x0 x1 y0 y1 =>
    intro h0 h1
    rw [xgcdLoop, dif_pos rfl]
    exact h0
  | case2 a b x0 x1 y0 y1 hb0 ih =>
    intro h0 h1
    rw [xgcdLoop, dif_neg hb0]
    apply ih h1
    have hm : a.fmod b = a - b * a.fdiv b := Int.fmod_def a b
    calc A * (x0 - a.fdiv b * x1) + B * (y0 - a.fdiv b * y1)
        = (A * x0 + B * y0) - a.fdiv b * (A * x1 + B * y1) := by ring
      _ = a - a.fdiv b * b := by rw [h0, h1]
      _ = a.fmod b := by rw [hm]; ring

/-- When the second argument stays non-negative (and the final value is
non-negative when the loop is skipped), the loop returns the gcd. -/
theorem xgcdLoop_gcd : ∀ a b x0 x1 y0 y1 : Int, 0 ≤ b → (b = 0 → 0 ≤ a) →
    (xgcdLoop a b x0 x1 y0 y1).1 = (Int.gcd a b : Int) := by
  intro a b x0 x1 y0 y1
  induction a, b, x0, x1, y0, y1 using xgcdLoop.induct with
  | case1 a x0 x1 y0 y1 =>
    intro _ hz
    rw [xgcdLoop, dif_pos rfl]
    rw [Int.gcd_zero_right, Int.natAbs_of_nonneg (hz rfl)]
  | case2 a b x0 x1 y0 y1 hb0 ih =>
    intro hbnn _
    have hbpos : 0 < b := lt_of_le_of_ne hbnn (Ne.symm hb0)
    rw [xgcdLoop, dif_neg hb0]
    rw [ih (Int.fmod_nonneg' a hbpos) (fun _ => hbpos.le)]
    rw [gcd_fmod_right a b hbpos]

/-- `xgcd` succeeds on the region where its assertion holds, returning
the gcd together with valid Bézout coefficients. -/
theorem xgcd_eq (a b : Int) (hb : 0 < b ∨ (b = 0 ∧ 0 ≤ a)) :
    ∃ x y : Int, xgcd a b = .ok ((Int.gcd a b : Int), x, y)
      ∧ a * x + b * y = (Int.gcd a b : Int) := by
  have h0 : a * 1 + b * 0 = a := by ring
  have h1 : a * 0 + b * 1 = b := by ring
  have hbez := xgcdLoop_bezout a b a b 1 0 0 1 h0 h1
  have hbnn : 0 ≤ b := by rcases hb with h | ⟨h, _⟩ <;> omega
  have hz : b = 0 → 0 ≤ a := by
    intro h
    rcases hb with h' | ⟨_, h'⟩
    · omega
    · exact h'
  have hgcd := xgcdLoop_gcd a b 1 0 0 1 hbnn hz
  refine ⟨(xgcdLoop a b 1 0 0 1).2.1, (xgcdLoop a b 1 0 0 1).2.2, ?_, ?_⟩
  · rw [xgcd]
    rw [if_pos (by rw [hbez, hgcd])]
    rw [← hgcd]
  · rw [hbez, hgcd]

/-- If `xgcd` returns at all, its first component is the true gcd (the
assertion pins the Bézout combination to `math.gcd`, and the loop
invariant pins the first component to the Bézout combination). -/
theorem xgcd_ok_gcd (a b g x y : Int) (h : xgcd a b = .ok (g, x, y)) :
    g = (Int.gcd a b : Int) := by
  have h0 : a * 1 + b * 0 = a := by ring
  have h1 : a * 0 + b * 1 = b := by ring
  have hbez := xgcdLoop_bezout a b a b 1 0 0 1 h0 h1
  rw [xgcd] at h
  by_cases hc : a * (xgcdLoop a b 1 0 0 1).2.1 + b * (xgcdLoop a b 1 0 0 1).2.2
      = (Int.gcd a b : Int)
  · rw [if_pos hc] at h
    have : (xgcdLoop a b 1 0 0 1).1 = g := by
      have := congrArg (fun z => match z with | .ok (w : Int × Int × Int) => w.1 | .error _ => 0) h
      simpa using this
    rw [← this, ← hbez, hc]
  · rw [if_neg hc] at h
    exact absurd h (by simp)

/-- `modinv` succeeds whenever the gcd is 1 and the modulus exceeds 1,
returning the canonical representative of the inverse. -/
theorem modinv_eq (a m : Int) (hm : 1 < m) (hg : Int.gcd a m = 1) :
    ∃ x : Int, modinv a m = .ok (x.fmod m)
      ∧ ((x.fmod m) * a).fmod m = 1 ∧ 0 ≤ x.fmod m ∧ x.fmod m < m := by
  obtain ⟨x, y, hx, hbez⟩ := xgcd_eq a m (Or.inl (by omega))
  have hinv : ((x.fmod m) * a).fmod m = 1 := by
    rw [Int.fmod_eq_emod _ (by omega : (0:Int) ≤ m), Int.fmod_eq_emod _ (by omega : (0:Int) ≤ m)]
    have h1 : x % m * a % m = x * a % m := by
      rw [Int.mul_emod, Int.emod_emod_of_dvd _ dvd_rfl, ← Int.mul_emod]
    rw [h1]
    have h2 : x * a = 1 - m * y := by rw [hg] at hbez; push_cast at hbez; linarith
    have h3 : (1 : Int) - m * y = 1 + m * (-y) := by ring
    rw [h2, h3, Int.add_mul_emod_self_left]
    exact Int.emod_eq_of_lt (by omega) (by omega)
  refine ⟨x, ?_, hinv, Int.fmod_nonneg' x (by omega), Int.fmod_lt_of_pos x (by omega)⟩
  rw [hg] at hx
  rw [modinv, hx]
  simp only [Nat.cast_one, ne_eq]
  rw [if_neg (by simp), if_pos hinv]

/-- Conversely, `modinv` only ever succeeds when the gcd is 1. -/
theorem modinv_ok_gcd (a m v : Int) (h : modinv a m = .ok v) : Int.gcd a m = 1 := by
  rw [modinv] at h
  rcases hx : xgcd a m with e | r
  · rw [hx] at h
    exact absurd h (by simp)
  · obtain ⟨g, x, y⟩ := r
    rw [hx] at h
    have hg := xgcd_ok_gcd a m g x y hx
    by_cases h1 : g = 1
    · rw [h1] at hg
      exact_mod_cast hg.symm
    · simp only [ne_eq, h1, not_false_eq_true, if_true] at h
      exact absurd h (by simp)

/-! ## Number theory of the Paillier scheme -/

/-- Binomial congruence: `(n+1)^k ≡ 1 + k*n` modulo `n²`. -/
theorem pow_succ_modEq (n k : ℕ) : (n+1)^k ≡ 1 + k*n [MOD n*n] := by
  induction k with
  | zero => simpa using Nat.ModEq.refl 1
  | succ k ih =>
    calc (n+1)^(k+1) = (n+1)^k * (n+1) := pow_succ _ _
      _ ≡ (1 + k*n) * (n+1) [MOD n*n] := ih.mul_right _
      _ = (1 + (k+1)*n) + k*(n*n) := by ring
      _ ≡ 1 + (k+1)*n [MOD n*n] := Nat.add_mul_mod_self_right _ _ _

/-- Reduction of `1 + k*n` modulo `n²` for `n ≥ 2`. -/
theorem one_add_mul_mod_sq (n k : ℕ) (hn : 2 ≤ n) : (1 + k*n) % (n*n) = 1 + (k % n)*n := by
  have hr : k % n < n := Nat.mod_lt _ (by omega)
  have h1 : 1 + k*n ≡ 1 + (k % n)*n [MOD n*n] := by
    conv_lhs => rw [← Nat.div_add_mod k n]
    have he : 1 + (n * (k / n) + k % n) * n = (1 + (k % n) * n) + (k / n) * (n * n) := by ring
    rw [he]
    exact Nat.add_mul_mod_self_right _ _ _
  have h2 : 1 + (k % n)*n < n*n := by
    have hm : k % n * n + n ≤ n * n := by
      calc k % n * n + n = (k % n + 1) * n := by ring
        _ ≤ n * n := Nat.mul_le_mul_right n (Nat.succ_le_of_lt hr)
    omega
  calc (1 + k*n) % (n*n) = (1 + (k % n)*n) % (n*n) := h1
    _ = 1 + (k % n)*n := Nat.mod_eq_of_lt h2

/-- Euler-style congruence modulo `n² = p²q²`: any unit raised to
`n * (p-1)(q-1)` is 1. -/
theorem pow_n_lambda_modEq_one (p q r : ℕ) (hp : p.Prime) (hq : q.Prime) (hpq : p ≠ q)
    (hr : Nat.Coprime r ((p*q)*(p*q))) :
    r ^ ((p*q) * ((p-1)*(q-1))) ≡ 1 [MOD (p*q)*(p*q)] := by
  have hsq : (p*q)*(p*q) = p^2 * q^2 := by ring
  have hco : Nat.Coprime (p^2) (q^2) := ((Nat.coprime_primes hp hq).mpr hpq).pow 2 2
  have hr2 : r.Coprime (p^2 * q^2) := by rwa [hsq] at hr
  have hrp : r.Coprime (p^2) := Nat.Coprime.coprime_dvd_right (dvd_mul_right _ _) hr2
  have hrq : r.Coprime (q^2) := Nat.Coprime.coprime_dvd_right (dvd_mul_left _ _) hr2
  have htp : Nat.totient (p^2) = p * (p-1) := by
    rw [Nat.totient_prime_pow hp (by norm_num : 0 < 2)]
    norm_num
  have htq : Nat.totient (q^2) = q * (q-1) := by
    rw [Nat.totient_prime_pow hq (by norm_num : 0 < 2)]
    norm_num
  have hep : r ^ (p * (p-1)) ≡ 1 [MOD p^2] := htp ▸ Nat.ModEq.pow_totient hrp
  have heq : r ^ (q * (q-1)) ≡ 1 [MOD q^2] := htq ▸ Nat.ModEq.pow_totient hrq
  have hexp1 : (p*q) * ((p-1)*(q-1)) = (p * (p-1)) * (q * (q-1)) := by ring
  have hmodp : r ^ ((p*q) * ((p-1)*(q-1))) ≡ 1 [MOD p^2] := by
    rw [hexp1, pow_mul]
    calc (r ^ (p * (p-1))) ^ (q * (q-1)) ≡ 1 ^ (q * (q-1)) [MOD p^2] := hep.pow _
      _ = 1 := one_pow _
  have hexp2 : (p*q) * ((p-1)*(q-1)) = (q * (q-1)) * (p * (p-1)) := by ring
  have hmodq : r ^ ((p*q) * ((p-1)*(q-1))) ≡ 1 [MOD q^2] := by
    rw [hexp2, pow_mul]
    calc (r ^ (q * (q-1))) ^ (p * (p-1)) ≡ 1 ^ (p * (p-1)) [MOD q^2] := heq.pow _
      _ = 1 := one_pow _
  rw [hsq]
  exact (Nat.modEq_and_modEq_iff_modEq_mul hco).mp ⟨hmodp, hmodq⟩

/-- The decryption kernel: if `c` is congruent to `(n+1)^m * r^n`
modulo `n²` for a unit `r`, then `c^((p-1)(q-1)) mod n²` has the exact
shape `1 + ((m*(p-1)(q-1)) mod n) * n`. -/
theorem decrypt_core (p q m r c : ℕ) (hp : p.Prime) (hq : q.Prime) (hpq : p ≠ q)
    (hr : Nat.Coprime r ((p*q)*(p*q)))
    (hc : c ≡ (p*q+1)^m * r^(p*q) [MOD (p*q)*(p*q)]) :
    c ^ ((p-1)*(q-1)) % ((p*q)*(p*q))
      = 1 + (m*((p-1)*(q-1)) % (p*q)) * (p*q) := by
  have hN : 2 ≤ p*q := by
    have h2 := hp.two_le
    have h3 := hq.two_le
    nlinarith
  have h1 : c ^ ((p-1)*(q-1)) ≡ ((p*q+1)^m * r^(p*q)) ^ ((p-1)*(q-1))
      [MOD (p*q)*(p*q)] := hc.pow _
  have h2 : ((p*q+1)^m * r^(p*q)) ^ ((p-1)*(q-1))
      = (p*q+1)^(m*((p-1)*(q-1))) * r^((p*q)*((p-1)*(q-1))) := by
    rw [mul_pow, ← pow_mul, ← pow_mul]
  have h3 : (p*q+1)^(m*((p-1)*(q-1))) ≡ 1 + (m*((p-1)*(q-1)))*(p*q)
      [MOD (p*q)*(p*q)] := pow_succ_modEq (p*q) _
  have h4 : r^((p*q)*((p-1)*(q-1))) ≡ 1 [MOD (p*q)*(p*q)] :=
    pow_n_lambda_modEq_one p q r hp hq hpq hr
  have h5 : c ^ ((p-1)*(q-1)) ≡ (1 + (m*((p-1)*(q-1)))*(p*q)) * 1
      [MOD (p*q)*(p*q)] := h1.trans (h2 ▸ h3.mul h4)
  rw [mul_one] at h5
  calc c ^ ((p-1)*(q-1)) % ((p*q)*(p*q))
      = (1 + (m*((p-1)*(q-1)))*(p*q)) % ((p*q)*(p*q)) := h5
    _ = 1 + (m*((p-1)*(q-1)) % (p*q)) * (p*q) := one_add_mul_mod_sq _ _ hN

/-! ## Casting bridges between the `Int` code and the `Nat` lemmas -/

/-- `powMod` on casts of naturals computes the natural `b^e % m`. -/
theorem powMod_natCast (b e m : ℕ) : powMod (b:Int) (e:Int) (m:Int) = ((b ^ e % m : ℕ) : Int) := by
  rw [powMod, Int.toNat_natCast]
  rw [show ((b:Int) ^ e) = ((b ^ e : ℕ) : Int) by push_cast; ring]
  exact (Int.ofNat_fmod _ _).symm

/-- `fmod` on casts of naturals computes the natural `a % m`. -/
theorem fmod_natCast (a m : ℕ) : ((a:Int)).fmod (m:Int) = ((a % m : ℕ) : Int) :=
  (Int.ofNat_fmod _ _).symm

/-- `fdiv` on casts of naturals computes the natural `a / m`. -/
theorem fdiv_natCast (a m : ℕ) : ((a:Int)).fdiv (m:Int) = ((a / m : ℕ) : Int) := by
  rw [Int.fdiv_eq_ediv _ (by positivity), Int.natCast_div]

/-- Product of casts reduced by `fmod` at a squared cast modulus. -/
theorem fmod_mul_natCast (a b m : ℕ) :
    ((a:Int) * (b:Int)).fmod ((m:Int) * (m:Int)) = ((a * b % (m*m) : ℕ) : Int) := by
  rw [show ((a:Int) * (b:Int)) = ((a*b : ℕ) : Int) by push_cast; ring]
  rw [show ((m:Int) * (m:Int)) = ((m*m : ℕ) : Int) by push_cast; ring]
  exact fmod_natCast _ _

/-- `encrypt_param` on casts of naturals computes exactly the Python
value `(g^v mod n²) * (r^n mod n²) mod n²`. -/
theorem encrypt_param_natCast (v N r : ℕ) :
    encrypt_param (v:Int) ((N:Int)+1) (N:Int) (r:Int)
      = ((((N+1) ^ v % (N*N)) * (r ^ N % (N*N)) % (N*N) : ℕ) : Int) := by
  rw [encrypt_param]
  have hn : ((N:Int)+1) = ((N+1 : ℕ) : Int) := by push_cast; ring
  have hm : ((N:Int) * (N:Int)) = ((N*N : ℕ) : Int) := by push_cast; ring
  rw [hn, hm, powMod_natCast, powMod_natCast]
  rw [show (((N+1) ^ v % (N*N) : ℕ) : Int) * ((r ^ N % (N*N) : ℕ) : Int)
      = (((N+1) ^ v % (N*N)) * (r ^ N % (N*N)) : ℕ) by push_cast; ring]
  exact fmod_natCast _ _

/-- `decrypt` on casts of naturals, under the congruence and inverse
hypotheses established by key generation, recovers `m mod n`. -/
theorem decrypt_eq_of_modEq (p q mu m r c : ℕ) (hp : p.Prime) (hq : q.Prime) (hpq : p ≠ q)
    (hr : Nat.Coprime r ((p*q)*(p*q)))
    (hc : c ≡ (p*q+1)^m * r^(p*q) [MOD (p*q)*(p*q)])
    (hmu : mu * ((p-1)*(q-1)) ≡ 1 [MOD p*q]) :
    decrypt (c:Int) (((p-1)*(q-1) : ℕ) : Int) (mu:Int) ((p*q : ℕ) : Int)
      = ((m % (p*q) : ℕ) : Int) := by
  have hN : 2 ≤ p*q := by
    have h2 := hp.two_le
    have h3 := hq.two_le
    nlinarith
  have hcore := decrypt_core p q m r c hp hq hpq hr hc
  rw [decrypt]
  have hm : (((p*q : ℕ) : Int) * ((p*q : ℕ) : Int)) = (((p*q)*(p*q) : ℕ) : Int) := by
    push_cast; ring
  rw [hm, powMod_natCast, hcore]
  have hsub : ((1 + (m*((p-1)*(q-1)) % (p*q)) * (p*q) : ℕ) : Int) - 1
      = (((m*((p-1)*(q-1)) % (p*q)) * (p*q) : ℕ) : Int) := by push_cast; ring
  rw [hsub, fdiv_natCast]
  rw [Nat.mul_div_cancel _ (by omega : 0 < p*q)]
  rw [show ((m*((p-1)*(q-1)) % (p*q) : ℕ) : Int) * (mu:Int)
      = (((m*((p-1)*(q-1)) % (p*q)) * mu : ℕ) : Int) by push_cast; ring]
  rw [fmod_natCast]
  congr 1
  calc (m*((p-1)*(q-1)) % (p*q)) * mu % (p*q)
      = m*((p-1)*(q-1)) * mu % (p*q) := by
        exact (Nat.ModEq.mul_right mu (Nat.mod_modEq _ _))
    _ = m * (mu * ((p-1)*(q-1))) % (p*q) := by ring_nf
    _ = m * 1 % (p*q) := (Nat.ModEq.mul_left m hmu)
    _ = m % (p*q) := by rw [mul_one]

/-- Whatever `modinv` returns has passed the source's `assert
(inv * a) % m == 1` and has the shape `x % m`. -/
theorem modinv_ok_inv (a m v : Int) (h : modinv a m = .ok v) :
    (v * a).fmod m = 1 ∧ ∃ x : Int, v = x.fmod m := by
  rw [modinv] at h
  rcases hx : xgcd a m with e | r
  · rw [hx] at h
    exact absurd h (by simp)
  · obtain ⟨g, x, y⟩ := r
    rw [hx] at h
    by_cases h1 : g = 1
    · simp only [h1, ne_eq, not_true_eq_false, if_false] at h
      by_cases h2 : ((x.fmod m) * a).fmod m = 1
      · rw [if_pos h2] at h
        have hv : x.fmod m = v := by
          have := congrArg (fun z => match z with | Except.ok (w : Int) => w | Except.error _ => 0) h
          simpa using this
        refine ⟨by rwa [hv] at h2, x, hv.symm⟩
      · rw [if_neg h2] at h
        exact absurd h (by simp)
    · simp only [ne_eq, h1, not_false_eq_true, if_true] at h
      exact absurd h (by simp)

/-- The value `l = (pow(g, gLambda, n*n) - 1) // n` computed inside
`generate_paillier_keys` equals `((p-1)(q-1)) mod pq`. -/
theorem genL_natCast (p q : ℕ) (hp1 : 1 ≤ p) (hq1 : 1 ≤ q) (hN : 2 ≤ p*q) :
    (powMod ((p:Int)*(q:Int)+1) (((p:Int)-1)*((q:Int)-1))
        (((p:Int)*(q:Int))*((p:Int)*(q:Int))) - 1).fdiv ((p:Int)*(q:Int))
      = ((((p-1)*(q-1)) % (p*q) : ℕ) : Int) := by
  have hL : ((p:Int) - 1) * ((q:Int) - 1) = (((p-1)*(q-1) : ℕ) : Int) := by
    rw [Nat.cast_mul, Nat.cast_sub hp1, Nat.cast_sub hq1, Nat.cast_one]
  have hg : (p:Int) * (q:Int) + 1 = ((p*q+1 : ℕ) : Int) := by push_cast; ring
  have hnn : ((p:Int) * (q:Int)) * ((p:Int) * (q:Int)) = (((p*q)*(p*q) : ℕ) : Int) := by
    push_cast; ring
  have hn : (p:Int) * (q:Int) = ((p*q : ℕ) : Int) := by push_cast; ring
  rw [hL, hg, hnn, powMod_natCast]
  have hmodsq : (p*q+1)^((p-1)*(q-1)) % ((p*q)*(p*q))
      = 1 + (((p-1)*(q-1)) % (p*q)) * (p*q) := by
    calc (p*q+1)^((p-1)*(q-1)) % ((p*q)*(p*q))
        = (1 + ((p-1)*(q-1))*(p*q)) % ((p*q)*(p*q)) := pow_succ_modEq (p*q) _
      _ = 1 + (((p-1)*(q-1)) % (p*q)) * (p*q) := one_add_mul_mod_sq _ _ hN
  rw [hmodsq]
  have hsub : ((1 + (((p-1)*(q-1)) % (p*q)) * (p*q) : ℕ) : Int) - 1
      = (((((p-1)*(q-1)) % (p*q)) * (p*q) : ℕ) : Int) := by push_cast; ring
  rw [hsub, hn, fdiv_natCast, Nat.mul_div_cancel _ (by omega : 0 < p*q)]

/-- Evaluation of `generate_paillier_keys` on natural inputs: the
argument of `modinv` reduces to `((p-1)(q-1)) mod pq`, and the keys are
assembled from the returned inverse. -/
theorem generate_paillier_keys_natCast (p q : ℕ) (hp1 : 1 ≤ p) (hq1 : 1 ≤ q)
    (hN : 2 ≤ p*q) :
    generate_paillier_keys (p:Int) (q:Int)
      = match modinv ((((p-1)*(q-1)) % (p*q) : ℕ) : Int) ((p*q : ℕ) : Int) with
        | .ok gMu => some (⟨(((p-1)*(q-1) : ℕ) : Int), gMu⟩,
            ⟨((p*q : ℕ) : Int), ((p*q+1 : ℕ) : Int)⟩)
        | .error _ => none := by
  have hL : ((p:Int) - 1) * ((q:Int) - 1) = (((p-1)*(q-1) : ℕ) : Int) := by
    rw [Nat.cast_mul, Nat.cast_sub hp1, Nat.cast_sub hq1, Nat.cast_one]
  have hg : (p:Int) * (q:Int) + 1 = ((p*q+1 : ℕ) : Int) := by push_cast; ring
  have hn : (p:Int) * (q:Int) = ((p*q : ℕ) : Int) := by push_cast; ring
  have hstart : generate_paillier_keys (p:Int) (q:Int)
      = match modinv ((powMod ((p:Int)*(q:Int)+1) (((p:Int)-1)*((q:Int)-1))
            (((p:Int)*(q:Int))*((p:Int)*(q:Int))) - 1).fdiv ((p:Int)*(q:Int)))
            ((p:Int)*(q:Int)) with
        | .ok gMu => some (⟨((p:Int)-1)*((q:Int)-1), gMu⟩,
            ⟨(p:Int)*(q:Int), (p:Int)*(q:Int)+1⟩)
        | .error _ => none := rfl
  rw [hstart, genL_natCast p q hp1 hq1 hN, hL, hg, hn]

/-- Structure of any key pair actually returned by
`generate_paillier_keys` on two naturals `≥ 1`: the public parts are
`n = pq` and `g = pq+1`, the private exponent is `(p-1)(q-1)`, and the
private multiplier is a natural that inverts it modulo `n`. -/
theorem generate_paillier_keys_ok (p q : ℕ) (hp1 : 1 ≤ p) (hq1 : 1 ≤ q) (hN : 2 ≤ p*q)
    (pr : PrivateKey) (pu : PublicKey)
    (hgen : generate_paillier_keys (p:Int) (q:Int) = some (pr, pu)) :
    pu.n = ((p*q : ℕ) : Int) ∧ pu.g = ((p*q+1 : ℕ) : Int) ∧
    pr.gLambda = (((p-1)*(q-1) : ℕ) : Int) ∧
    ∃ mu : ℕ, pr.gMu = (mu : Int) ∧ mu * ((p-1)*(q-1)) ≡ 1 [MOD p*q] := by
  rw [generate_paillier_keys_natCast p q hp1 hq1 hN] at hgen
  rcases hmod : modinv ((((p-1)*(q-1)) % (p*q) : ℕ) : Int) ((p*q : ℕ) : Int) with e | gMu
  · rw [hmod] at hgen
    exact absurd hgen (by simp)
  · rw [hmod] at hgen
    have hpair : pr = ⟨(((p-1)*(q-1) : ℕ) : Int), gMu⟩
        ∧ pu = ⟨((p*q : ℕ) : Int), ((p*q+1 : ℕ) : Int)⟩ := by
      have h1 := congrArg (fun z => match z with
        | some (w : PrivateKey × PublicKey) => w
        | none => (⟨0, 0⟩, ⟨0, 0⟩)) hgen
      simp only [Option.some.injEq] at h1
      exact ⟨congrArg Prod.fst h1.symm, congrArg Prod.snd h1.symm⟩
    obtain ⟨hinv, x, hx⟩ := modinv_ok_inv _ _ _ hmod
    have hnn : (0:Int) ≤ gMu := by
      rw [hx]
      exact Int.fmod_nonneg' x (by exact_mod_cast Nat.lt_of_lt_of_le Nat.zero_lt_two hN)
    refine ⟨by rw [hpair.2], by rw [hpair.2], by rw [hpair.1], gMu.toNat, ?_, ?_⟩
    · rw [hpair.1]
      simp [Int.toNat_of_nonneg hnn]
    · have hcast : ((gMu.toNat * (((p-1)*(q-1)) % (p*q)) % (p*q) : ℕ) : Int) = 1 := by
        rw [Int.ofNat_fmod]
        push_cast [Int.toNat_of_nonneg hnn]
        exact hinv
      have h1 : gMu.toNat * (((p-1)*(q-1)) % (p*q)) % (p*q) = 1 := by exact_mod_cast hcast
      have h2 : gMu.toNat * ((p-1)*(q-1)) ≡ gMu.toNat * (((p-1)*(q-1)) % (p*q)) [MOD p*q] :=
        Nat.ModEq.mul_left _ (Nat.mod_modEq _ _).symm
      calc gMu.toNat * ((p-1)*(q-1)) ≡ gMu.toNat * (((p-1)*(q-1)) % (p*q)) [MOD p*q] := h2
        _ ≡ 1 [MOD p*q] := by
            show gMu.toNat * (((p-1)*(q-1)) % (p*q)) % (p*q) = 1 % (p*q)
            rw [h1, Nat.mod_eq_of_lt (by omega)]

/-- The natural value computed by `encrypt_param` is congruent to
`(n+1)^v * r^n` modulo `n²`. -/
theorem encrypt_modEq (N v r : ℕ) :
    ((N+1)^v % (N*N)) * (r^N % (N*N)) % (N*N) ≡ (N+1)^v * r^N [MOD N*N] :=
  (Nat.mod_modEq _ _).trans ((Nat.mod_modEq _ _).mul (Nat.mod_modEq _ _))

/-- Round-trip helper shared by several claims: with keys actually
produced by `generate_paillier_keys` on distinct primes, decryption
inverts `encrypt_param` for any coprime random factor. -/
theorem decrypt_encrypt_param (p q : ℕ) (hp : Nat.Prime p) (hq : Nat.Prime q) (hpq : p ≠ q)
    (pr : PrivateKey) (pu : PublicKey)
    (hgen : generate_paillier_keys (p:Int) (q:Int) = some (pr, pu))
    (v r : ℕ) (hv : v < p*q) (hrc : Nat.gcd r ((p*q)*(p*q)) = 1) :
    decrypt (encrypt_param (v:Int) pu.g pu.n (r:Int)) pr.gLambda pr.gMu pu.n = (v:Int) := by
  have hN : 2 ≤ p*q := le_trans (by norm_num) (Nat.mul_le_mul hp.two_le hq.two_le)
  obtain ⟨hn, hg, hlam, mu, hmu, hinv⟩ :=
    generate_paillier_keys_ok p q hp.one_le hq.one_le hN pr pu hgen
  have hgrw : ((p*q+1 : ℕ) : Int) = ((p*q : ℕ) : Int) + 1 := by push_cast; ring
  rw [hn, hg, hlam, hmu, hgrw, encrypt_param_natCast]
  rw [decrypt_eq_of_modEq p q mu v r _ hp hq hpq hrc (encrypt_modEq _ _ _) hinv]
  rw [Nat.mod_eq_of_lt hv]

/-- `xgcd` can only fail with `AssertionError`. -/
theorem xgcd_error (a b : Int) (e : PyErr) (h : xgcd a b = .error e) : e = .assertionError := by
  rw [xgcd] at h
  by_cases hc : a * (xgcdLoop a b 1 0 0 1).2.1 + b * (xgcdLoop a b 1 0 0 1).2.2
      = (Int.gcd a b : Int)
  · rw [if_pos hc] at h
    exact Except.noConfusion h
  · rw [if_neg hc] at h
    injection h with h2
    exact h2.symm

/-- `modinv` can only fail with `AssertionError` or the no-inverse
`Exception`. -/
theorem modinv_error (a m : Int) (e : PyErr) (h : modinv a m = .error e) :
    e = .assertionError ∨ e = .generic "Modular inverse does not exist" := by
  rw [modinv] at h
  rcases hx : xgcd a m with e' | r
  · rw [hx] at h
    injection h with h2
    exact Or.inl (h2.symm ▸ xgcd_error a m e' hx)
  · obtain ⟨g, x, y⟩ := r
    rw [hx] at h
    by_cases h1 : g = 1
    · simp only [h1, ne_eq, not_true_eq_false, if_false] at h
      by_cases h2 : ((x.fmod m) * a).fmod m = 1
      · rw [if_pos h2] at h
        exact Except.noConfusion h
      · rw [if_neg h2] at h
        injection h with h3
        exact Or.inl h3.symm
    · simp only [ne_eq, h1, not_false_eq_true, if_true] at h
      injection h with h3
      exact Or.inr h3.symm

/-- A failing `computeResult` never raises `MessageParseError`: only
`TypeError`, `AssertionError` or the no-inverse `Exception`. -/
theorem computeResult_error (m : PaillierMessage) (e : PyErr)
    (h : m.computeResult = .error e) :
    e = .typeError ∨ e = .assertionError ∨ e = .generic "Modular inverse does not exist" := by
  cases m with
  | add e1 e2 n =>
    cases e1 <;> cases e2 <;> cases n <;>
      simp only [PaillierMessage.computeResult] at h <;>
      first
        | exact Except.noConfusion h
        | (injection h with h2
           exact Or.inl h2.symm)
  | mul x mm n =>
    cases x <;> cases mm <;> cases n <;>
      simp only [PaillierMessage.computeResult] at h <;>
      first
        | exact Except.noConfusion h
        | (injection h with h2
           exact Or.inl h2.symm)
  | sub e1 e2 n =>
    cases e1 with
    | str s =>
      cases e2 <;> cases n <;> simp only [PaillierMessage.computeResult] at h <;>
        (injection h with h2
         exact Or.inl h2.symm)
    | num z1 =>
      cases e2 with
      | str s =>
        cases n <;> simp only [PaillierMessage.computeResult] at h <;>
          (injection h with h2
           exact Or.inl h2.symm)
      | num z2 =>
        cases n with
        | str s =>
          simp only [PaillierMessage.computeResult] at h
          injection h with h2
          exact Or.inl h2.symm
        | num z3 =>
          simp only [PaillierMessage.computeResult] at h
          rcases hmod : modinv z2 (z3 * z3) with e' | v
          · rw [hmod] at h
            injection h with h2
            exact Or.inr (h2.symm ▸ modinv_error _ _ _ hmod)
          · rw [hmod] at h
            exact Except.noConfusion h

/-! ## The claims -/

/-- C1: for every pair of distinct primes `p, q` with `(lambda, mu)` and
`(n, g)` produced by `generate_paillier_keys(p, q)`, every plaintext `v`
in `[0, n)`, and every random factor `r` in `[2, n*n]` with
`gcd(r, n*n) = 1`: `decrypt(encrypt_param(v, g, n, r), lambda, mu, n) == v`. -/
theorem claim_C1 (p q : ℕ) (hp : Nat.Prime p) (hq : Nat.Prime q) (hpq : p ≠ q)
    (pr : PrivateKey) (pu : PublicKey)
    (hgen : generate_paillier_keys (p:Int) (q:Int) = some (pr, pu))
    (v r : ℕ) (hv : v < p*q) (hr2 : 2 ≤ r) (hrle : r ≤ (p*q)*(p*q))
    (hrc : Nat.gcd r ((p*q)*(p*q)) = 1) :
    decrypt (encrypt_param (v:Int) pu.g pu.n (r:Int)) pr.gLambda pr.gMu pu.n = (v:Int) :=
  decrypt_encrypt_param p q hp hq hpq pr pu hgen v r hv hrc

/-- C1 witness: the concrete instance `p=3, q=5, v=2, r=7`. -/
theorem claim_C1_witness :
    Nat.Prime 3 ∧ Nat.Prime 5 ∧ (3 : ℕ) ≠ 5 ∧
    generate_paillier_keys ((3:ℕ):Int) ((5:ℕ):Int)
      = some (⟨8, 2⟩, ⟨15, 16⟩) ∧
    (2:ℕ) < 3*5 ∧ (2:ℕ) ≤ 7 ∧ (7:ℕ) ≤ (3*5)*(3*5) ∧ Nat.gcd 7 ((3*5)*(3*5)) = 1 ∧
    decrypt (encrypt_param ((2:ℕ):Int) (PublicKey.mk 15 16).g (PublicKey.mk 15 16).n
      ((7:ℕ):Int)) (PrivateKey.mk 8 2).gLambda (PrivateKey.mk 8 2).gMu
      (PublicKey.mk 15 16).n = ((2:ℕ):Int) := by
  have hgen : generate_paillier_keys ((3:ℕ):Int) ((5:ℕ):Int)
      = some (⟨8, 2⟩, ⟨15, 16⟩) := by
    show generate_paillier_keys 3 5 = _
    simp +decide [generate_paillier_keys, modinv, xgcd, xgcdLoop, powMod]
  refine ⟨by norm_num, by norm_num, by decide, hgen, by decide, by decide, by decide,
    by decide, ?_⟩
  exact claim_C1 3 5 (by norm_num) (by norm_num) (by decide) ⟨8, 2⟩ ⟨15, 16⟩ hgen
    2 7 (by decide) (by decide) (by decide) (by decide)

/-- C2: for keys generated from distinct primes, plaintexts `v1, v2` in
`[0, n)` encrypted with any valid random factors, the Add computation's
result `(e1 * e2) mod n*n` decrypts with the private key to
`(v1 + v2) mod n`. -/
theorem claim_C2 (p q : ℕ) (hp : Nat.Prime p) (hq : Nat.Prime q) (hpq : p ≠ q)
    (pr : PrivateKey) (pu : PublicKey)
    (hgen : generate_paillier_keys (p:Int) (q:Int) = some (pr, pu))
    (v1 v2 r1 r2 : ℕ) (hv1 : v1 < p*q) (hv2 : v2 < p*q)
    (hr1 : Nat.gcd r1 ((p*q)*(p*q)) = 1) (hr2 : Nat.gcd r2 ((p*q)*(p*q)) = 1) :
    ∃ resp : PaillierResponse,
      PaillierMessage.computeResult (.add (.num (encrypt_param (v1:Int) pu.g pu.n (r1:Int)))
        (.num (encrypt_param (v2:Int) pu.g pu.n (r2:Int))) (.num pu.n)) = .ok resp
      ∧ resp.decryptResult pr.gLambda pr.gMu pu.n = .ok ((((v1+v2) % (p*q) : ℕ)) : Int) := by
  have hN : 2 ≤ p*q := le_trans (by norm_num) (Nat.mul_le_mul hp.two_le hq.two_le)
  obtain ⟨hn, hg, hlam, mu, hmu, hinv⟩ :=
    generate_paillier_keys_ok p q hp.one_le hq.one_le hN pr pu hgen
  have hgrw : ((p*q+1 : ℕ) : Int) = ((p*q : ℕ) : Int) + 1 := by push_cast; ring
  rw [hn, hg, hlam, hmu, hgrw, encrypt_param_natCast, encrypt_param_natCast]
  refine ⟨_, rfl, ?_⟩
  rw [PaillierResponse.decryptResult]
  rw [fmod_mul_natCast]
  have hrc : Nat.Coprime (r1*r2) ((p*q)*(p*q)) := Nat.Coprime.mul hr1 hr2
  have hc : ((p*q+1) ^ v1 % ((p*q)*(p*q)) * (r1 ^ (p*q) % ((p*q)*(p*q))) % ((p*q)*(p*q)))
        * ((p*q+1) ^ v2 % ((p*q)*(p*q)) * (r2 ^ (p*q) % ((p*q)*(p*q))) % ((p*q)*(p*q)))
        % ((p*q)*(p*q))
      ≡ (p*q+1) ^ (v1+v2) * (r1*r2) ^ (p*q) [MOD (p*q)*(p*q)] := by
    calc ((p*q+1) ^ v1 % ((p*q)*(p*q)) * (r1 ^ (p*q) % ((p*q)*(p*q))) % ((p*q)*(p*q)))
          * ((p*q+1) ^ v2 % ((p*q)*(p*q)) * (r2 ^ (p*q) % ((p*q)*(p*q))) % ((p*q)*(p*q)))
          % ((p*q)*(p*q))
        ≡ ((p*q+1) ^ v1 % ((p*q)*(p*q)) * (r1 ^ (p*q) % ((p*q)*(p*q))) % ((p*q)*(p*q)))
          * ((p*q+1) ^ v2 % ((p*q)*(p*q)) * (r2 ^ (p*q) % ((p*q)*(p*q))) % ((p*q)*(p*q)))
          [MOD (p*q)*(p*q)] := Nat.mod_modEq _ _
      _ ≡ ((p*q+1) ^ v1 * r1 ^ (p*q)) * ((p*q+1) ^ v2 * r2 ^ (p*q))
          [MOD (p*q)*(p*q)] := (encrypt_modEq _ _ _).mul (encrypt_modEq _ _ _)
      _ = (p*q+1) ^ (v1+v2) * (r1*r2) ^ (p*q) := by rw [pow_add, mul_pow]; ring
  rw [decrypt_eq_of_modEq p q mu (v1+v2) (r1*r2) _ hp hq hpq hrc hc hinv]

/-- C2 witness: the concrete instance `p=3, q=5, v1=7, v2=11,
r1=2, r2=4`. -/
theorem claim_C2_witness :
    ∃ resp : PaillierResponse,
      PaillierMessage.computeResult (.add
        (.num (encrypt_param ((7:ℕ):Int) (PublicKey.mk 15 16).g (PublicKey.mk 15 16).n
          ((2:ℕ):Int)))
        (.num (encrypt_param ((11:ℕ):Int) (PublicKey.mk 15 16).g (PublicKey.mk 15 16).n
          ((4:ℕ):Int)))
        (.num (PublicKey.mk 15 16).n)) = .ok resp
      ∧ resp.decryptResult (PrivateKey.mk 8 2).gLambda (PrivateKey.mk 8 2).gMu
          (PublicKey.mk 15 16).n = .ok ((((7+11) % (3*5) : ℕ)) : Int) := by
  have hgen : generate_paillier_keys ((3:ℕ):Int) ((5:ℕ):Int)
      = some (⟨8, 2⟩, ⟨15, 16⟩) := by
    show generate_paillier_keys 3 5 = _
    simp +decide [generate_paillier_keys, modinv, xgcd, xgcdLoop, powMod]
  exact claim_C2 3 5 (by norm_num) (by norm_num) (by decide) ⟨8, 2⟩ ⟨15, 16⟩ hgen
    7 11 2 4 (by decide) (by decide) (by decide) (by decide)

/-- C3 (amended): the server handler converts `MessageParseError`
failures into an `Error` response carrying the failure description, and
forwards successful computation results; but a failure raised inside
`computeResult` itself — such as the modular-inverse failure in the Sub
computation — is not caught and propagates out of `handle`, so the
server sends no response for it. -/
theorem claim_C3_amended (j : Json) :
    (∀ s, PaillierMessage.fromJson j = .error (.msgParse s) →
      handle j = .ok (PaillierErrorResponse (some (.str s))))
    ∧ (∀ m resp, PaillierMessage.fromJson j = .ok m →
        PaillierMessage.computeResult m = .ok resp → handle j = .ok resp)
    ∧ (∀ m e, PaillierMessage.fromJson j = .ok m →
        PaillierMessage.computeResult m = .error e → handle j = .error e) := by
  refine ⟨?_, ?_, ?_⟩
  · intro s hs
    rw [handle, hs]
    rfl
  · intro m resp hm hr
    rw [handle, hm]
    show (match PaillierMessage.computeResult m with
      | .ok result => Except.ok result
      | .error (.msgParse mm) => Except.ok (PaillierErrorResponse (some (.str mm)))
      | .error e => Except.error e) = Except.ok resp
    rw [hr]
  · intro m e hm hr
    rw [handle, hm]
    show (match PaillierMessage.computeResult m with
      | .ok result => Except.ok result
      | .error (.msgParse mm) => Except.ok (PaillierErrorResponse (some (.str mm)))
      | .error e => Except.error e) = Except.error e
    rw [hr]
    rcases computeResult_error m e hr with rfl | rfl | rfl <;> rfl

/-- C3 counterexample: a well-formed Sub request whose `e2` is not
invertible modulo `n*n`; decoding succeeds but the computation raises
the plain no-inverse `Exception`, which `handle` does not catch — it
propagates instead of being turned into an `Error` response, refuting
"every failure on the computation side is caught". -/
theorem claim_C3_counterexample :
    PaillierMessage.fromJson
        [("type", .str "SUB"), ("e1", .num 1), ("e2", .num 3), ("n", .num 3)]
      = .ok (.sub (.num 1) (.num 3) (.num 3))
    ∧ handle [("type", .str "SUB"), ("e1", .num 1), ("e2", .num 3), ("n", .num 3)]
      = .error (.generic "Modular inverse does not exist") := by
  constructor
  · rfl
  · simp +decide [handle, PaillierMessage.fromJson, PaillierMessage.parseSub, Json.get,
      PaillierMessage.computeResult, Except.bind, modinv, xgcd, xgcdLoop]

/-- C3 witness: the amended statement applied to two concrete requests:
an unparseable one (answered with an `Error` response) and the
non-invertible Sub request (whose failure propagates). -/
theorem claim_C3_witness :
    handle [("type", .str "FOO")]
      = .ok (PaillierErrorResponse (some (.str "No \"type\" field in message")))
    ∧ handle [("type", .str "SUB"), ("e1", .num 1), ("e2", .num 3), ("n", .num 3)]
      = .error (.generic "Modular inverse does not exist") := by
  constructor
  · exact (claim_C3_amended _).1 _ rfl
  · refine (claim_C3_amended _).2.2 (.sub (.num 1) (.num 3) (.num 3)) _ rfl ?_
    show PaillierMessage.computeResult _ = _
    simp +decide [PaillierMessage.computeResult, modinv, xgcd, xgcdLoop]

/-- C4: for every Add request with numeric fields, `computeResult`
returns `(e1 * e2) mod n*n` wrapped in a `PaillierAddResponse`, whose
wire tag is `ADD_RESP` — the implementation corrects the reference
system's multiplication-tag mislabeling. -/
theorem claim_C4 (e1 e2 n : Int) :
    PaillierMessage.computeResult (.add (.num e1) (.num e2) (.num n))
      = .ok (.addResponse (.num ((e1 * e2).fmod (n * n))))
    ∧ (PaillierResponse.addResponse (.num ((e1 * e2).fmod (n * n)))).msgType
      = "ADD_RESP" :=
  ⟨rfl, rfl⟩
/-- C5: for every decoded JSON record, an absent `type` field, an
unrecognized discriminant, or a missing required field of the
recognized variant makes `fromJson` fail with `MessageParseError`
naming the first missing or invalid field (in the parser's checking
order), while a complete record decodes to the corresponding message. -/
theorem claim_C5 (j : Json) :
    (j.get "type" = none →
      PaillierMessage.fromJson j = .error (.msgParse "No \"type\" field in message"))
    ∧ (∀ t, j.get "type" = some t → t ≠ .str "ADD" → t ≠ .str "MUL" → t ≠ .str "SUB" →
      PaillierMessage.fromJson j = .error (.msgParse "No \"type\" field in message"))
    ∧ (j.get "type" = some (.str "ADD") →
        (j.get "e1" = none →
          PaillierMessage.fromJson j = .error (.msgParse "No \"e1\" field in message"))
        ∧ (∀ e1, j.get "e1" = some e1 → j.get "e2" = none →
          PaillierMessage.fromJson j = .error (.msgParse "No \"e2\" field in message"))
        ∧ (∀ e1 e2, j.get "e1" = some e1 → j.get "e2" = some e2 → j.get "n" = none →
          PaillierMessage.fromJson j = .error (.msgParse "No \"n\" field in message"))
        ∧ (∀ e1 e2 n, j.get "e1" = some e1 → j.get "e2" = some e2 → j.get "n" = some n →
          PaillierMessage.fromJson j = .ok (.add e1 e2 n)))
    ∧ (j.get "type" = some (.str "MUL") →
        (j.get "ciphertext" = none →
          PaillierMessage.fromJson j
            = .error (.msgParse "No \"ciphertext\" field in message"))
        ∧ (∀ x, j.get "ciphertext" = some x → j.get "multiplier" = none →
          PaillierMessage.fromJson j
            = .error (.msgParse "No \"multiplier field in message"))
        ∧ (∀ x m, j.get "ciphertext" = some x → j.get "multiplier" = some m →
            j.get "n" = none →
          PaillierMessage.fromJson j = .error (.msgParse "No \"n\" field in message"))
        ∧ (∀ x m n, j.get "ciphertext" = some x → j.get "multiplier" = some m →
            j.get "n" = some n →
          PaillierMessage.fromJson j = .ok (.mul x m n)))
    ∧ (j.get "type" = some (.str "SUB") →
        (j.get "e1" = none →
          PaillierMessage.fromJson j = .error (.msgParse "No \"e1\" field in message"))
        ∧ (∀ e1, j.get "e1" = some e1 → j.get "e2" = none →
          PaillierMessage.fromJson j = .error (.msgParse "No \"e2\" field in message"))
        ∧ (∀ e1 e2, j.get "e1" = some e1 → j.get "e2" = some e2 → j.get "n" = none →
          PaillierMessage.fromJson j = .error (.msgParse "No \"n\" field in message"))
        ∧ (∀ e1 e2 n, j.get "e1" = some e1 → j.get "e2" = some e2 → j.get "n" = some n →
          PaillierMessage.fromJson j = .ok (.sub e1 e2 n))) := by
  refine ⟨?_, ?_, ?_, ?_, ?_⟩
  · intro h
    rw [PaillierMessage.fromJson, if_neg (by simp [h]), if_neg (by simp [h]),
      if_neg (by simp [h])]
  · intro t ht h1 h2 h3
    rw [PaillierMessage.fromJson, if_neg (by simp [ht, h1]), if_neg (by simp [ht, h2]),
      if_neg (by simp [ht, h3])]
  · intro ht
    rw [PaillierMessage.fromJson, if_pos ht]
    refine ⟨?_, ?_, ?_, ?_⟩
    · intro h
      rw [PaillierMessage.parseAdd, h]
    · intro e1 h1 h2
      rw [PaillierMessage.parseAdd, h1, h2]
    · intro e1 e2 h1 h2 h3
      rw [PaillierMessage.parseAdd, h1, h2, h3]
    · intro e1 e2 n h1 h2 h3
      rw [PaillierMessage.parseAdd, h1, h2, h3]
  · intro ht
    have hne : j.get "type" ≠ some (.str "ADD") := by rw [ht]; simp
    rw [PaillierMessage.fromJson, if_neg hne, if_pos ht]
    refine ⟨?_, ?_, ?_, ?_⟩
    · intro h
      rw [PaillierMessage.parseMul, h]
    · intro x h1 h2
      rw [PaillierMessage.parseMul, h1, h2]
    · intro x m h1 h2 h3
      rw [PaillierMessage.parseMul, h1, h2, h3]
    · intro x m n h1 h2 h3
      rw [PaillierMessage.parseMul, h1, h2, h3]
  · intro ht
    have hne1 : j.get "type" ≠ some (.str "ADD") := by rw [ht]; simp
    have hne2 : j.get "type" ≠ some (.str "MUL") := by rw [ht]; simp
    rw [PaillierMessage.fromJson, if_neg hne1, if_neg hne2, if_pos ht]
    refine ⟨?_, ?_, ?_, ?_⟩
    · intro h
      rw [PaillierMessage.parseSub, h]
    · intro e1 h1 h2
      rw [PaillierMessage.parseSub, h1, h2]
    · intro e1 e2 h1 h2 h3
      rw [PaillierMessage.parseSub, h1, h2, h3]
    · intro e1 e2 n h1 h2 h3
      rw [PaillierMessage.parseSub, h1, h2, h3]

/-- C5 witness: concrete decodings — the empty record, the spec's
`FOO` record, the spec's incomplete `ADD` record, and a complete `ADD`
record. -/
theorem claim_C5_witness :
    PaillierMessage.fromJson [] = .error (.msgParse "No \"type\" field in message")
    ∧ PaillierMessage.fromJson [("type", .str "FOO")]
      = .error (.msgParse "No \"type\" field in message")
    ∧ PaillierMessage.fromJson [("type", .str "ADD"), ("e1", .num 5)]
      = .error (.msgParse "No \"e2\" field in message")
    ∧ PaillierMessage.fromJson
        [("type", .str "ADD"), ("e1", .num 1), ("e2", .num 2), ("n", .num 3)]
      = .ok (.add (.num 1) (.num 2) (.num 3)) := by
  refine ⟨(claim_C5 _).1 rfl,
    (claim_C5 _).2.1 (.str "FOO") rfl (by decide) (by decide) (by decide),
    ((claim_C5 [("type", .str "ADD"), ("e1", .num 5)]).2.2.1 rfl).2.1 (.num 5) rfl rfl,
    ((claim_C5 [("type", .str "ADD"), ("e1", .num 1), ("e2", .num 2),
      ("n", .num 3)]).2.2.1 rfl).2.2.2 (.num 1) (.num 2) (.num 3) rfl rfl rfl⟩

/-- C6 (amended): for all integers `a`, `b` with `b > 0`, or `b = 0`
and `a ≥ 0`, `xgcd(a, b)` returns `(g, x, y)` with `g = gcd(a, b)` and
`a*x + b*y = g`; outside this region the final remainder-chain value is
negative, so the internal assertion comparing it against the
non-negative `math.gcd` fails and `AssertionError` is raised. -/
theorem claim_C6_amended (a b : Int) (hb : 0 < b ∨ (b = 0 ∧ 0 ≤ a)) :
    ∃ x y : Int, xgcd a b = .ok ((Int.gcd a b : Int), x, y)
      ∧ a * x + b * y = (Int.gcd a b : Int) :=
  xgcd_eq a b hb

/-- C6 counterexample: at `a = -1, b = 0` the returned first component
would be `-1` while `math.gcd(-1, 0) = 1`, so the internal assertion
fails and `xgcd` raises instead of returning Bézout data. -/
theorem claim_C6_counterexample :
    xgcd (-1) 0 = .error .assertionError ∧ Int.gcd (-1) 0 = 1 := by
  constructor
  · simp +decide [xgcd, xgcdLoop]
  · decide

/-- C6 witness: the amended statement at `a = -6, b = 4`. -/
theorem claim_C6_witness :
    ((0:Int) < 4 ∨ ((4:Int) = 0 ∧ (0:Int) ≤ -6))
    ∧ ∃ x y : Int, xgcd (-6) 4 = .ok ((Int.gcd (-6) 4 : Int), x, y)
      ∧ (-6) * x + 4 * y = (Int.gcd (-6) 4 : Int) :=
  ⟨Or.inl (by norm_num), claim_C6_amended (-6) 4 (Or.inl (by norm_num))⟩
/-- C7 (amended): two encryptions of the same plaintext under valid
keys both decrypt to that plaintext; the two ciphertexts are equal
exactly when `r1^n ≡ r2^n (mod n²)` — so distinct random factors
usually, but not always, give distinct ciphertexts. -/
theorem claim_C7_amended (p q : ℕ) (hp : Nat.Prime p) (hq : Nat.Prime q) (hpq : p ≠ q)
    (pr : PrivateKey) (pu : PublicKey)
    (hgen : generate_paillier_keys (p:Int) (q:Int) = some (pr, pu))
    (v r1 r2 : ℕ) (hv : v < p*q)
    (hc1 : Nat.gcd r1 ((p*q)*(p*q)) = 1) (hc2 : Nat.gcd r2 ((p*q)*(p*q)) = 1) :
    decrypt (encrypt_param (v:Int) pu.g pu.n (r1:Int)) pr.gLambda pr.gMu pu.n = (v:Int)
    ∧ decrypt (encrypt_param (v:Int) pu.g pu.n (r2:Int)) pr.gLambda pr.gMu pu.n = (v:Int)
    ∧ (encrypt_param (v:Int) pu.g pu.n (r1:Int) = encrypt_param (v:Int) pu.g pu.n (r2:Int)
        ↔ r1 ^ (p*q) ≡ r2 ^ (p*q) [MOD (p*q)*(p*q)]) := by
  refine ⟨decrypt_encrypt_param p q hp hq hpq pr pu hgen v r1 hv hc1,
    decrypt_encrypt_param p q hp hq hpq pr pu hgen v r2 hv hc2, ?_⟩
  have hN : 2 ≤ p*q := le_trans (by norm_num) (Nat.mul_le_mul hp.two_le hq.two_le)
  obtain ⟨hn, hg, hlam, mu, hmu, hinv⟩ :=
    generate_paillier_keys_ok p q hp.one_le hq.one_le hN pr pu hgen
  have hgrw : ((p*q+1 : ℕ) : Int) = ((p*q : ℕ) : Int) + 1 := by push_cast; ring
  rw [hn, hg, hgrw, encrypt_param_natCast, encrypt_param_natCast, Int.natCast_inj]
  have e1 : (p*q+1)^v % ((p*q)*(p*q)) * (r1^(p*q) % ((p*q)*(p*q))) % ((p*q)*(p*q))
      = (p*q+1)^v * r1^(p*q) % ((p*q)*(p*q)) := (Nat.mul_mod _ _ _).symm
  have e2 : (p*q+1)^v % ((p*q)*(p*q)) * (r2^(p*q) % ((p*q)*(p*q))) % ((p*q)*(p*q))
      = (p*q+1)^v * r2^(p*q) % ((p*q)*(p*q)) := (Nat.mul_mod _ _ _).symm
  rw [e1, e2]
  have hA1 : Nat.Coprime (p*q+1) (p*q) := by simp
  have hA2 : Nat.Coprime (p*q+1) ((p*q)*(p*q)) := hA1.mul_right hA1
  have hA3 : Nat.Coprime ((p*q+1)^v) ((p*q)*(p*q)) := Nat.Coprime.pow_left v hA2
  constructor
  · intro h
    exact Nat.ModEq.cancel_left_of_coprime hA3.symm h
  · intro h
    exact Nat.ModEq.mul_left _ h

/-- C7 counterexample: with the `p=3, q=5` keys, the distinct random
factors `r1 = 2` and `r2 = 32 = 2*(n+1)` satisfy every hypothesis of
the claim yet produce the same ciphertext for the plaintext `v = 1`,
refuting "different random factors produce different ciphertexts". -/
theorem claim_C7_counterexample :
    Nat.Prime 3 ∧ Nat.Prime 5 ∧ (3:ℕ) ≠ 5
    ∧ generate_paillier_keys ((3:ℕ):Int) ((5:ℕ):Int) = some (⟨8, 2⟩, ⟨15, 16⟩)
    ∧ (1:ℕ) < 3*5 ∧ (2:ℕ) ≠ 32 ∧ 2 ≤ (2:ℕ) ∧ (2:ℕ) ≤ (3*5)*(3*5)
    ∧ 2 ≤ (32:ℕ) ∧ (32:ℕ) ≤ (3*5)*(3*5)
    ∧ Nat.gcd 2 ((3*5)*(3*5)) = 1 ∧ Nat.gcd 32 ((3*5)*(3*5)) = 1
    ∧ encrypt_param ((1:ℕ):Int) (PublicKey.mk 15 16).g (PublicKey.mk 15 16).n ((2:ℕ):Int)
      = encrypt_param ((1:ℕ):Int) (PublicKey.mk 15 16).g (PublicKey.mk 15 16).n
        ((32:ℕ):Int) := by
  refine ⟨by norm_num, by norm_num, by decide, ?_, by decide, by decide, by decide,
    by decide, by decide, by decide, by decide, by decide, by decide⟩
  show generate_paillier_keys 3 5 = _
  simp +decide [generate_paillier_keys, modinv, xgcd, xgcdLoop, powMod]

/-- C7 witness: the amended statement at `p=3, q=5, v=2, r1=2, r2=7`. -/
theorem claim_C7_witness :
    decrypt (encrypt_param ((2:ℕ):Int) (PublicKey.mk 15 16).g (PublicKey.mk 15 16).n
        ((2:ℕ):Int)) (PrivateKey.mk 8 2).gLambda (PrivateKey.mk 8 2).gMu
        (PublicKey.mk 15 16).n = ((2:ℕ):Int)
    ∧ decrypt (encrypt_param ((2:ℕ):Int) (PublicKey.mk 15 16).g (PublicKey.mk 15 16).n
        ((7:ℕ):Int)) (PrivateKey.mk 8 2).gLambda (PrivateKey.mk 8 2).gMu
        (PublicKey.mk 15 16).n = ((2:ℕ):Int)
    ∧ (encrypt_param ((2:ℕ):Int) (PublicKey.mk 15 16).g (PublicKey.mk 15 16).n ((2:ℕ):Int)
        = encrypt_param ((2:ℕ):Int) (PublicKey.mk 15 16).g (PublicKey.mk 15 16).n
          ((7:ℕ):Int)
        ↔ 2 ^ (3*5) ≡ 7 ^ (3*5) [MOD (3*5)*(3*5)]) := by
  have hgen : generate_paillier_keys ((3:ℕ):Int) ((5:ℕ):Int)
      = some (⟨8, 2⟩, ⟨15, 16⟩) := by
    show generate_paillier_keys 3 5 = _
    simp +decide [generate_paillier_keys, modinv, xgcd, xgcdLoop, powMod]
  exact claim_C7_amended 3 5 (by norm_num) (by norm_num) (by decide) ⟨8, 2⟩ ⟨15, 16⟩ hgen
    2 2 7 (by decide) (by decide) (by decide)

/-- C8: for every `Error` response and every private-key triple,
`decryptResult` raises `PaillierComputationError` carrying the stored
message and never returns a numeric value. -/
theorem claim_C8 (msg : JsonValue) (gLambda gMu n : Int) :
    (PaillierResponse.errorResponse msg).decryptResult gLambda gMu n
      = .error (.compError msg)
    ∧ ∀ z : Int,
      (PaillierResponse.errorResponse msg).decryptResult gLambda gMu n ≠ .ok z :=
  ⟨rfl, fun _ h => Except.noConfusion h⟩

/-- C9: encoding of every constructed request and response variant is
total, and decoding the encoding returns the same variant with the same
fields — for requests via `PaillierMessage.fromJson ∘ toJson`, for
responses via `PaillierResponse.fromJson ∘ toJson`, with `Error`
responses built through the `PaillierErrorResponse` constructor. -/
theorem claim_C9 :
    (∀ m : PaillierMessage,
      PaillierMessage.fromJson (PaillierMessage.toJson m) = .ok m)
    ∧ (∀ res : JsonValue,
      PaillierResponse.fromJson (PaillierResponse.toJson (.addResponse res))
          = .ok (.addResponse res)
        ∧ PaillierResponse.fromJson (PaillierResponse.toJson (.mulResponse res))
          = .ok (.mulResponse res)
        ∧ PaillierResponse.fromJson (PaillierResponse.toJson (.subResponse res))
          = .ok (.subResponse res))
    ∧ (∀ m : Option JsonValue,
      PaillierResponse.fromJson (PaillierResponse.toJson (PaillierErrorResponse m))
        = .ok (PaillierErrorResponse m)) := by
  refine ⟨?_, ?_, ?_⟩
  · intro m
    cases m <;> rfl
  · intro res
    exact ⟨rfl, rfl, rfl⟩
  · intro m
    cases m with
    | none => rfl
    | some v =>
      rw [PaillierErrorResponse]
      by_cases h : v.falsy
      · rw [if_pos h]
        rfl
      · rw [if_neg h]
        show PaillierResponse.fromJson [("type", .str "ERROR"), ("result", v)]
          = .ok (.errorResponse v)
        have hget : Json.get [("type", .str "ERROR"), ("result", v)] "type"
            = some (.str "ERROR") := rfl
        rw [PaillierResponse.fromJson]
        rw [if_neg (by rw [hget]; decide), if_neg (by rw [hget]; decide), if_pos hget]
        show Except.ok (PaillierErrorResponse (some v)) = .ok (.errorResponse v)
        rw [PaillierErrorResponse, if_neg h]

/-- C10 (amended): `generate_paillier_keys(p, q)` is a deterministic
function of `p, q`; its retry loop re-runs an identical computation, so
it returns keys (after one iteration) exactly when
`l = ((g^lambda mod n*n) - 1) // n` is invertible modulo `n`, and on
any input where `modinv(l, n)` fails it loops forever (embedded as
`none`) instead of raising.  Invertibility does NOT hold for all
distinct primes: it fails whenever `gcd((p-1)(q-1), pq) ≠ 1`, e.g. for
`p=3, q=7`. -/
theorem claim_C10_amended (p q : ℕ) (hp1 : 1 ≤ p) (hq1 : 1 ≤ q) (hN : 2 ≤ p*q) :
    (generate_paillier_keys (p:Int) (q:Int)).isSome
      ↔ Int.gcd ((powMod ((p:Int)*(q:Int)+1) (((p:Int)-1)*((q:Int)-1))
          (((p:Int)*(q:Int))*((p:Int)*(q:Int))) - 1).fdiv ((p:Int)*(q:Int)))
          ((p:Int)*(q:Int)) = 1 := by
  rw [genL_natCast p q hp1 hq1 hN]
  rw [generate_paillier_keys_natCast p q hp1 hq1 hN]
  have hn : (p:Int) * (q:Int) = ((p*q : ℕ) : Int) := by push_cast; ring
  rw [hn]
  rcases hmod : modinv ((((p-1)*(q-1)) % (p*q) : ℕ) : Int) ((p*q : ℕ) : Int) with e | v
  · simp only [hmod]
    constructor
    · intro h
      exact absurd h (by simp)
    · intro hg
      obtain ⟨x, hx, _, _, _⟩ := modinv_eq _ _ (by omega) hg
      rw [hmod] at hx
      exact Except.noConfusion hx
  · simp only [hmod]
    constructor
    · intro _
      exact modinv_ok_gcd _ _ _ hmod
    · intro _
      simp

/-- C10 counterexample: `p = 3` and `q = 7` are distinct primes, yet
`gcd((p-1)(q-1), pq) = 3`, `modinv(l, n)` fails, and the bare-`except`
retry loop of `generate_paillier_keys` re-raises forever — the function
never returns (embedded as `none`), refuting the parenthetical "as it
is for distinct primes p, q". -/
theorem claim_C10_counterexample :
    Nat.Prime 3 ∧ Nat.Prime 7 ∧ (3:ℕ) ≠ 7 ∧ generate_paillier_keys 3 7 = none := by
  refine ⟨by norm_num, by norm_num, by decide, ?_⟩
  simp +decide [generate_paillier_keys, modinv, xgcd, xgcdLoop, powMod]

/-- C10 witness: the amended statement at `p=3, q=5` (where generation
succeeds and the gcd is 1). -/
theorem claim_C10_witness :
    (generate_paillier_keys ((3:ℕ):Int) ((5:ℕ):Int)).isSome
      ↔ Int.gcd ((powMod (((3:ℕ):Int)*((5:ℕ):Int)+1) ((((3:ℕ):Int)-1)*(((5:ℕ):Int)-1))
          ((((3:ℕ):Int)*((5:ℕ):Int))*(((3:ℕ):Int)*((5:ℕ):Int))) - 1).fdiv
          (((3:ℕ):Int)*((5:ℕ):Int))) (((3:ℕ):Int)*((5:ℕ):Int)) = 1 :=
  claim_C10_amended 3 5 (by norm_num) (by norm_num) (by norm_num)
end Paillier
